import Mathlib

/-!
Verification of the texture-indexer tool (`src/texture_indexer.py`).

The SQLite `textures` table is modelled as a `List TextureInfo` in rowid
order: `INSERT OR REPLACE` deletes any row with the conflicting unique
`path` and appends the fresh row at the end, `SELECT ... WHERE path = ?`
with `fetchone` returns the first matching row, `ORDER BY filename`
sorts by the byte order of the filename column (Lean's `String` order),
and `LIMIT n` takes a prefix.

Filesystem reads and the two external primitives (PIL image decoding and
the hashlib MD5 digest of the streamed bytes) are modelled as data
carried by an `FsFile` value: `decoded = none` means `Image.open`
raises, `hashed = none` means reading the bytes for hashing raises,
and `hashed = some d` means the read succeeds and the digest is `d`.
-/

/-- The `TextureInfo` dataclass: one row of extracted file metadata
(the auto-increment `id` and `indexed_date` columns carry no data-model
content and are omitted). -/
structure TextureInfo where
  path : String
  filename : String
  category : String
  subcategory : String
  file_size : Nat
  width : Nat
  height : Nat
  format : String
  hash_md5 : String
  created_date : String
  modified_date : String
deriving DecidableEq, Repr

/-- `isPrefixList n h`: the char list `n` starts the char list `h`. -/
def isPrefixList : List Char → List Char → Bool
  | [], _ => true
  | _ :: _, [] => false
  | a :: as, b :: bs => a == b && isPrefixList as bs

/-- `containsList n h`: the char list `n` occurs contiguously in `h`. -/
def containsList (n : List Char) : List Char → Bool
  | [] => n.isEmpty
  | c :: cs => isPrefixList n (c :: cs) || containsList n cs

/-- Python's `needle in hay` substring test on strings. -/
def containsSub (needle hay : String) : Bool :=
  containsList needle.toList hay.toList

/-- ASCII lower-casing of a string (Python `str.lower`, SQLite `LIKE`
case folding), character by character. -/
def strToLower (s : String) : String :=
  String.mk (s.toList.map Char.toLower)

/-- SQLite `column LIKE '%pat%'`: substring match, case-insensitive for
ASCII (the patterns built by `search_textures` contain no further
wildcard characters). -/
def likeContains (pat s : String) : Bool :=
  containsSub (strToLower pat) (strToLower s)

/-- Lexicographic comparison of char lists by code point: the order the
SQLite BINARY collation gives to the UTF-8 encoded column values. -/
def charListLe : List Char → List Char → Bool
  | [], _ => true
  | _ :: _, [] => false
  | a :: as, b :: bs =>
    if a.toNat < b.toNat then true
    else if b.toNat < a.toNat then false
    else charListLe as bs

/-- `str(file_path)` for a relative path given by its segments. -/
def pathOf (parts : List String) : String :=
  String.intercalate "/" parts

/-- Python `Path.name`: the final path segment. -/
def nameOf (parts : List String) : String :=
  parts.getLastD ""

/-- Python `Path.suffix`: `name[i:]` where `i` is the index of the last
dot, provided `0 < i < len(name) - 1`; otherwise the empty string. -/
def fileSuffix (name : String) : String :=
  let cs := name.toList
  match cs.reverse.findIdx? (· == '.') with
  | none => ""
  | some j =>
    let i := cs.length - 1 - j
    if 0 < i ∧ i < cs.length - 1 then String.mk (cs.drop i) else ""

/-- `self.supported_formats` from `TextureIndexer.__init__`. -/
def supported_formats : List String :=
  [".png", ".jpg", ".jpeg", ".bmp", ".tga", ".psd"]

/-- The `art_source_prefixes` list in `extract_category_info`. -/
def artSourceFolders : List String :=
  ["RimWorldArtSource", "BiotechArtSource", "IdeologyArtSource",
   "RoyaltyArtSource", "AnomalyArtSource", "OdysseyArtSource"]

/-- `TextureIndexer.extract_category_info` on the segments of the path
relative to the base directory (last segment is the filename). -/
def extract_category_info (parts : List String) : String × String :=
  match parts with
  | [] => ("Unknown", "")
  | p0 :: _ =>
    let category :=
      if containsSub "RimWorld" p0 then "RimWorld"
      else if containsSub "Biotech" p0 then "Biotech"
      else if containsSub "Ideology" p0 then "Ideology"
      else if containsSub "Royalty" p0 then "Royalty"
      else if containsSub "Anomaly" p0 then "Anomaly"
      else if containsSub "Odyssey" p0 then "Odyssey"
      else "Unknown"
    let subcategory :=
      if parts.length > 2 then
        let mid := (parts.drop 1).dropLast
        let mid :=
          match mid with
          | m0 :: mrest => if m0 ∈ artSourceFolders then mrest else mid
          | [] => mid
        String.intercalate "/" mid
      else ""
    (category, subcategory)

/-- One on-disk file as the indexer observes it: its relative path
segments, `stat` data, and the outcomes of the two fallible reads
(PIL decode, byte read + MD5 digest). -/
structure FsFile where
  parts : List String
  file_size : Nat
  ctime : String
  mtime : String
  decoded : Option (Nat × Nat)
  hashed : Option String
deriving DecidableEq, Repr

/-- `TextureIndexer.get_file_hash`: the hex digest on success, `""` when
reading the file raises. -/
def get_file_hash (hashed : Option String) : String :=
  match hashed with
  | some d => d
  | none => ""

/-- `TextureIndexer.get_image_dimensions`: `img.size` on success,
`(0, 0)` when decoding raises. -/
def get_image_dimensions (decoded : Option (Nat × Nat)) : Nat × Nat :=
  match decoded with
  | some wh => wh
  | none => (0, 0)

/-- The `TextureInfo(...)` record built in `TextureIndexer.index_file`. -/
def buildInfo (f : FsFile) : TextureInfo :=
  let dims := get_image_dimensions f.decoded
  { path := pathOf f.parts
    filename := nameOf f.parts
    category := (extract_category_info f.parts).1
    subcategory := (extract_category_info f.parts).2
    file_size := f.file_size
    width := dims.1
    height := dims.2
    format := strToLower (fileSuffix (nameOf f.parts))
    hash_md5 := get_file_hash f.hashed
    created_date := f.ctime
    modified_date := f.mtime }

/-- `TextureIndexer.index_file`: `None` for an unsupported extension,
otherwise the metadata record. -/
def index_file (f : FsFile) : Option TextureInfo :=
  if strToLower (fileSuffix (nameOf f.parts)) ∈ supported_formats then
    some (buildInfo f)
  else none

/-- `TextureIndexer.save_texture_info`: SQLite `INSERT OR REPLACE` keyed
by the unique `path` column — the conflicting row is deleted and the new
row appended with a fresh rowid. -/
def save_texture_info (s : List TextureInfo) (t : TextureInfo) : List TextureInfo :=
  s.filter (fun r => r.path != t.path) ++ [t]

/-- `TextureIndexer.get_texture_by_path`: first row with the given path,
or `none`. -/
def get_texture_by_path (s : List TextureInfo) (p : String) : Option TextureInfo :=
  s.find? (fun r => r.path == p)

/-- The per-file loop of `TextureIndexer.index_directory` over an
enumeration of on-disk files, returning the final store and the number
of rows written (`indexed_count`). A file is skipped when a stored row
for its path has a matching `modified_date`. -/
def index_directory : List FsFile → List TextureInfo → List TextureInfo × Nat
  | [], store => (store, 0)
  | f :: rest, store =>
    let fresh :=
      match get_texture_by_path store (pathOf f.parts) with
      | some existing => !(existing.modified_date == f.mtime)
      | none => true
    if fresh then
      match index_file f with
      | some info =>
        ((index_directory rest (save_texture_info store info)).1,
         (index_directory rest (save_texture_info store info)).2 + 1)
      | none => index_directory rest store
    else index_directory rest store

/-- The WHERE clause assembled by `TextureIndexer.search_textures`: each
filter contributes a conjunct only when its guard fires (non-empty
string, `min > 0`, `max < 999999`). -/
def matchesFilters (filename_pattern category subcategory : String)
    (min_width max_width min_height max_height : Nat)
    (format_filter : String) (r : TextureInfo) : Bool :=
  (filename_pattern == "" || likeContains filename_pattern r.filename) &&
  (category == "" || r.category == category) &&
  (subcategory == "" || likeContains subcategory r.subcategory) &&
  (!(decide (0 < min_width)) || decide (min_width ≤ r.width)) &&
  (!(decide (max_width < 999999)) || decide (r.width ≤ max_width)) &&
  (!(decide (0 < min_height)) || decide (min_height ≤ r.height)) &&
  (!(decide (max_height < 999999)) || decide (r.height ≤ max_height)) &&
  (format_filter == "" || r.format == format_filter)

/-- The `ORDER BY filename` comparison (BINARY collation). -/
def filenameLe (a b : TextureInfo) : Bool :=
  charListLe a.filename.toList b.filename.toList

/-- Insert into a run kept ordered by `le` (auxiliary to `sortBy`). -/
def insertBy (le : α → α → Bool) (a : α) : List α → List α
  | [] => [a]
  | b :: bs => if le a b then a :: b :: bs else b :: insertBy le a bs

/-- Sorting by the comparison `le` (the effect of `ORDER BY`). -/
def sortBy (le : α → α → Bool) : List α → List α
  | [] => []
  | a :: as => insertBy le a (sortBy le as)

/-- `TextureIndexer.search_textures`: filter, `ORDER BY filename`,
`LIMIT limit`. -/
def search_textures (s : List TextureInfo)
    (filename_pattern category subcategory : String)
    (min_width max_width min_height max_height : Nat)
    (format_filter : String) (limit : Nat) : List TextureInfo :=
  (sortBy filenameLe
    (s.filter (matchesFilters filename_pattern category subcategory
      min_width max_width min_height max_height format_filter))).take limit

/-- `SELECT COUNT(*) FROM textures` as a row scan. -/
def countRows (s : List TextureInfo) : Nat :=
  s.foldl (fun n _ => n + 1) 0

/-- Comparison used for the GROUP BY output order. -/
def strLe (a b : String) : Bool :=
  charListLe a.toList b.toList

/-- `SELECT key, COUNT(*) ... GROUP BY key`: one output row per distinct
key with its multiplicity, in key order. -/
def groupCount (keys : List String) : List (String × Nat) :=
  (sortBy strLe keys.dedup).map (fun k => (k, keys.count k))

/-- SQLite `AVG(column)`: `NULL` on an empty table, else the mean. -/
def sqlAvg (xs : List Nat) : Option ℚ :=
  if xs.isEmpty then none else some ((xs.sum : ℚ) / xs.length)

/-- Python `round(x, 2)` on the exact value. -/
def roundTo2 (q : ℚ) : ℚ :=
  (round (q * 100) : ℤ) / 100

/-- The dictionary returned by `TextureIndexer.get_statistics`. -/
structure Stats where
  total_textures : Nat
  by_category : List (String × Nat)
  by_format : List (String × Nat)
  avg_width : ℚ
  avg_height : ℚ
  avg_file_size : ℚ
deriving DecidableEq, Repr

/-- `TextureIndexer.get_statistics`: total count, GROUP BY category,
GROUP BY format, and the three averages with `avg or 0` then
`round(_, 2)`. -/
def get_statistics (s : List TextureInfo) : Stats :=
  { total_textures := countRows s
    by_category := groupCount (s.map (fun r => r.category))
    by_format := groupCount (s.map (fun r => r.format))
    avg_width := roundTo2 ((sqlAvg (s.map (fun r => r.width))).getD 0)
    avg_height := roundTo2 ((sqlAvg (s.map (fun r => r.height))).getD 0)
    avg_file_size := roundTo2 ((sqlAvg (s.map (fun r => r.file_size))).getD 0) }

/-- The `path TEXT UNIQUE` constraint: no two rows share a path. -/
def pathUnique (s : List TextureInfo) : Prop :=
  (s.map (fun r => r.path)).Nodup

/-! ### Sample data used by witnesses -/

/-- A small concrete row used by witnesses. -/
def sampleRec (p : String) (w : Nat) : TextureInfo :=
  { path := p, filename := "a", category := "RimWorld", subcategory := "",
    file_size := 10, width := w, height := w, format := ".png",
    hash_md5 := "h", created_date := "c", modified_date := "m" }

/-- A small concrete on-disk file used by witnesses. -/
def sampleFile : FsFile :=
  { parts := ["RimWorldArtSource", "Buildings", "wall.png"], file_size := 123,
    ctime := "2024-01-01T00:00:00", mtime := "2024-01-02T00:00:00",
    decoded := some (64, 64), hashed := some "abc" }

/-! ### Sorting infrastructure -/

lemma insertBy_perm {α : Type} (le : α → α → Bool) (a : α) (l : List α) :
    List.Perm (insertBy le a l) (a :: l) := by
  induction l with
  | nil => exact List.Perm.refl _
  | cons b bs ih =>
    simp only [insertBy]
    cases hab : le a b with
    | true => simp
    | false =>
      simp only [Bool.false_eq_true, if_false]
      exact (ih.cons b).trans (List.Perm.swap a b bs)

lemma sortBy_perm {α : Type} (le : α → α → Bool) (l : List α) :
    List.Perm (sortBy le l) l := by
  induction l with
  | nil => exact List.Perm.refl _
  | cons a as ih =>
    simp only [sortBy]
    exact (insertBy_perm le a (sortBy le as)).trans (ih.cons a)

lemma pairwise_insertBy {α : Type} (le : α → α → Bool)
    (htrans : ∀ x y z, le x y = true → le y z = true → le x z = true)
    (htot : ∀ x y, le x y = true ∨ le y x = true)
    (a : α) (l : List α) (h : l.Pairwise (fun x y => le x y = true)) :
    (insertBy le a l).Pairwise (fun x y => le x y = true) := by
  induction l with
  | nil => simp [insertBy]
  | cons b bs ih =>
    obtain ⟨hb, hbs⟩ := List.pairwise_cons.mp h
    simp only [insertBy]
    cases hab : le a b with
    | true =>
      simp only [if_true]
      refine List.pairwise_cons.mpr ⟨?_, h⟩
      intro x hx
      rcases List.mem_cons.mp hx with rfl | hxbs
      · exact hab
      · exact htrans a b x hab (hb x hxbs)
    | false =>
      simp only [Bool.false_eq_true, if_false]
      refine List.pairwise_cons.mpr ⟨?_, ih hbs⟩
      intro x hx
      have hx' : x = a ∨ x ∈ bs := by
        have := (insertBy_perm le a bs).mem_iff.mp hx
        simpa using this
      rcases hx' with rfl | hxbs
      · rcases htot x b with h1 | h1
        · rw [hab] at h1; exact absurd h1 (by simp)
        · exact h1
      · exact hb x hxbs

lemma pairwise_sortBy {α : Type} (le : α → α → Bool)
    (htrans : ∀ x y z, le x y = true → le y z = true → le x z = true)
    (htot : ∀ x y, le x y = true ∨ le y x = true)
    (l : List α) :
    (sortBy le l).Pairwise (fun x y => le x y = true) := by
  induction l with
  | nil => simp [sortBy]
  | cons a as ih =>
    simp only [sortBy]
    exact pairwise_insertBy le htrans htot a (sortBy le as) ih

lemma charListLe_total : ∀ as bs : List Char,
    charListLe as bs = true ∨ charListLe bs as = true
  | [], _ => Or.inl rfl
  | _ :: _, [] => Or.inr rfl
  | a :: as, b :: bs => by
    rcases Nat.lt_trichotomy a.toNat b.toNat with h | h | h
    · left; simp [charListLe, h]
    · have h1 : ¬ a.toNat < b.toNat := by omega
      have h2 : ¬ b.toNat < a.toNat := by omega
      rcases charListLe_total as bs with ih | ih
      · left; simp [charListLe, h1, h2, ih]
      · right; simp [charListLe, h1, h2, ih]
    · right; simp [charListLe, h]

lemma charListLe_trans : ∀ as bs cs : List Char,
    charListLe as bs = true → charListLe bs cs = true → charListLe as cs = true
  | [], _, _ => by intro _ _; rfl
  | _ :: _, [], _ => by intro h _; simp [charListLe] at h
  | _ :: _, _ :: _, [] => by intro _ h; simp [charListLe] at h
  | a :: as, b :: bs, c :: cs => by
    intro h1 h2
    have key1 : a.toNat < b.toNat ∨ (a.toNat = b.toNat ∧ charListLe as bs = true) := by
      by_cases h : a.toNat < b.toNat
      · exact Or.inl h
      · by_cases h' : b.toNat < a.toNat
        · simp [charListLe, h, h'] at h1
        · exact Or.inr ⟨by omega, by simpa [charListLe, h, h'] using h1⟩
    have key2 : b.toNat < c.toNat ∨ (b.toNat = c.toNat ∧ charListLe bs cs = true) := by
      by_cases h : b.toNat < c.toNat
      · exact Or.inl h
      · by_cases h' : c.toNat < b.toNat
        · simp [charListLe, h, h'] at h2
        · exact Or.inr ⟨by omega, by simpa [charListLe, h, h'] using h2⟩
    rcases key1 with hlt1 | ⟨heq1, hrec1⟩ <;> rcases key2 with hlt2 | ⟨heq2, hrec2⟩
    · have : a.toNat < c.toNat := by omega
      simp [charListLe, this]
    · have : a.toNat < c.toNat := by omega
      simp [charListLe, this]
    · have : a.toNat < c.toNat := by omega
      simp [charListLe, this]
    · have hn1 : ¬ a.toNat < c.toNat := by omega
      have hn2 : ¬ c.toNat < a.toNat := by omega
      simp only [charListLe, hn1, hn2, if_false]
      exact charListLe_trans as bs cs hrec1 hrec2

lemma filenameLe_trans (x y z : TextureInfo) :
    filenameLe x y = true → filenameLe y z = true → filenameLe x z = true :=
  charListLe_trans _ _ _

lemma filenameLe_total (x y : TextureInfo) :
    filenameLe x y = true ∨ filenameLe y x = true :=
  charListLe_total _ _

/-! ### C1: upsert followed by lookup-by-path returns the record -/

/-- Claim C1: for every store and record, `save_texture_info` followed by
`get_texture_by_path` on the record's path returns a stored row whose
data-model fields (all the fields of `TextureInfo`) equal those of the
record inserted. -/
theorem upsert_lookup_roundtrip (s : List TextureInfo) (t : TextureInfo) :
    get_texture_by_path (save_texture_info s t) t.path = some t := by
  unfold get_texture_by_path save_texture_info
  rw [List.find?_append]
  have h1 : (s.filter fun r => r.path != t.path).find? (fun r => r.path == t.path)
      = none := by
    rw [List.find?_eq_none]
    intro x hx
    have hx2 := (List.mem_filter.mp hx).2
    simp only [bne_iff_ne, ne_eq] at hx2
    simp [hx2]
  rw [h1]
  simp [List.find?]

/-! ### C2: the path column stays unique and upserts replace -/

lemma filter_path_length (s : List TextureInfo) (p : String)
    (h : (s.map (fun r => r.path)).Nodup)
    (hm : p ∈ s.map (fun r => r.path)) :
    (s.filter fun r => r.path != p).length + 1 = s.length := by
  induction s with
  | nil => simp at hm
  | cons x t ih =>
    simp only [List.map_cons, List.nodup_cons] at h
    obtain ⟨hx, ht⟩ := h
    by_cases hxp : x.path = p
    · have hall : ∀ r ∈ t, (r.path != p) = true := by
        intro r hr
        have hne : r.path ≠ p := by
          intro hc
          exact hx (by rw [hxp, ← hc]; exact List.mem_map_of_mem _ hr)
        simpa using hne
      have hkeep : t.filter (fun r => r.path != p) = t := List.filter_eq_self.mpr hall
      simp [List.filter_cons, hxp, hkeep]
    · have hm' : p ∈ t.map (fun r => r.path) := by
        rcases List.mem_cons.mp hm with h1 | h1
        · exact absurd h1.symm hxp
        · exact h1
      have hne : (x.path != p) = true := by simpa using hxp
      simp only [List.filter_cons, hne, if_true, List.length_cons]
      have := ih ht hm'
      omega

/-- Claim C2: an upsert on a store whose paths are unique keeps them unique,
adds at most one row, and — when the path is already present — replaces
the prior row so the row count is unchanged. -/
theorem upsert_preserves_unique (s : List TextureInfo) (t : TextureInfo)
    (h : pathUnique s) :
    pathUnique (save_texture_info s t) ∧
    (save_texture_info s t).length ≤ s.length + 1 ∧
    (t.path ∈ s.map (fun r => r.path) →
      (save_texture_info s t).length = s.length) := by
  unfold pathUnique at *
  unfold save_texture_info
  refine ⟨?_, ?_, ?_⟩
  · rw [List.map_append]
    apply List.Nodup.append
    · exact ((List.filter_sublist s).map (fun r => r.path)).nodup h
    · simp
    · intro a ha hb
      simp only [List.map_cons, List.map_nil, List.mem_singleton] at hb
      subst hb
      simp only [List.mem_map, List.mem_filter] at ha
      obtain ⟨r, ⟨_, hrne⟩, hrp⟩ := ha
      rw [hrp] at hrne
      simp at hrne
  · have := List.length_filter_le (fun r => r.path != t.path) s
    simp only [List.length_append, List.length_cons, List.length_nil]
    omega
  · intro hm
    have := filter_path_length s t.path h hm
    simp only [List.length_append, List.length_cons, List.length_nil]
    omega

/-- Witness for C2 at a concrete store: a one-row store, upserting a
second record with the same path. -/
theorem upsert_preserves_unique_witness :
    pathUnique [sampleRec "p" 1] ∧
    (pathUnique (save_texture_info [sampleRec "p" 1] (sampleRec "p" 2)) ∧
     (save_texture_info [sampleRec "p" 1] (sampleRec "p" 2)).length ≤
       ([sampleRec "p" 1] : List TextureInfo).length + 1 ∧
     ((sampleRec "p" 2).path ∈ ([sampleRec "p" 1] : List TextureInfo).map
        (fun r => r.path) →
      (save_texture_info [sampleRec "p" 1] (sampleRec "p" 2)).length =
        ([sampleRec "p" 1] : List TextureInfo).length)) :=
  ⟨by unfold pathUnique; decide,
   upsert_preserves_unique [sampleRec "p" 1] (sampleRec "p" 2)
     (by unfold pathUnique; decide)⟩

/-! ### C3: re-indexing with no on-disk changes writes nothing -/

/-- Claim C3: when every enumerated file already has a stored row for its path
with the same modification timestamp, the `index_directory` loop skips
every file: the store is unchanged and zero rows are written. -/
theorem reindex_unchanged_no_writes (files : List FsFile) (store : List TextureInfo)
    (h : ∀ f ∈ files, ∃ e, get_texture_by_path store (pathOf f.parts) = some e ∧
      e.modified_date = f.mtime) :
    index_directory files store = (store, 0) := by
  induction files with
  | nil => rfl
  | cons f rest ih =>
    obtain ⟨e, he, hm⟩ := h f (List.mem_cons_self f rest)
    have hrest := ih (fun g hg => h g (List.mem_cons_of_mem f hg))
    simp only [index_directory, he, hm]
    simp [hrest]

/-- Witness for C3: one file whose stored row carries its timestamp. -/
theorem reindex_unchanged_no_writes_witness :
    (∀ f ∈ [sampleFile], ∃ e,
      get_texture_by_path [buildInfo sampleFile] (pathOf f.parts) = some e ∧
      e.modified_date = f.mtime) ∧
    index_directory [sampleFile] [buildInfo sampleFile] = ([buildInfo sampleFile], 0) := by
  have h : ∀ f ∈ [sampleFile], ∃ e,
      get_texture_by_path [buildInfo sampleFile] (pathOf f.parts) = some e ∧
      e.modified_date = f.mtime := by
    intro f hf
    simp only [List.mem_singleton] at hf
    subst hf
    exact ⟨buildInfo sampleFile, by decide, by decide⟩
  exact ⟨h, reindex_unchanged_no_writes _ _ h⟩

/-! ### Search lemmas -/

lemma matchesFilters_defaults (r : TextureInfo) :
    matchesFilters "" "" "" 0 999999 0 999999 "" r = true := by
  simp [matchesFilters]

lemma search_defaults_eq (s : List TextureInfo) (lim : Nat) :
    search_textures s "" "" "" 0 999999 0 999999 "" lim =
      (sortBy filenameLe s).take lim := by
  unfold search_textures
  rw [List.filter_eq_self.mpr (fun r _ => matchesFilters_defaults r)]

lemma matchesFilters_width (minW maxW : Nat) (r : TextureInfo)
    (hmax : maxW < 999999) :
    matchesFilters "" "" "" minW maxW 0 999999 "" r =
      (decide (minW ≤ r.width) && decide (r.width ≤ maxW)) := by
  by_cases h0 : 0 < minW
  · simp [matchesFilters, hmax, h0]
  · have hz : minW = 0 := by omega
    subst hz
    simp [matchesFilters, hmax, Nat.zero_le]

/-! ### C4: search with no filters -/

/-- A store of 1001 rows with pairwise distinct paths. -/
def bigStore : List TextureInfo :=
  (List.range 1001).map (fun i => sampleRec (String.append "p" (Nat.repr i)) i)

/-- Counterexample to C4 as stated: on a store of 1001 rows, a search
with every filter at its default does not return all records — the
default `LIMIT 1000` drops one of them. -/
theorem search_defaults_misses_record :
    ¬ (∀ r ∈ bigStore,
        r ∈ search_textures bigStore "" "" "" 0 999999 0 999999 "" 1000) := by
  intro hall
  have hnd : bigStore.Nodup := by
    have hmap : bigStore.map (fun r => r.width) = List.range 1001 := by
      simp only [bigStore, List.map_map]
      have : ((fun r => r.width) ∘ fun i => sampleRec (String.append "p" (Nat.repr i)) i)
          = fun i => i := rfl
      rw [this]
      simp
    exact List.Nodup.of_map _ (hmap ▸ List.nodup_range 1001)
  have hle := (hnd.subperm (fun r hr => hall r hr)).length_le
  have hlen1 : bigStore.length = 1001 := by simp [bigStore]
  have hlen2 :
      (search_textures bigStore "" "" "" 0 999999 0 999999 "" 1000).length = 1000 := by
    rw [search_defaults_eq, List.length_take,
      (sortBy_perm filenameLe bigStore).length_eq, hlen1]
    exact Nat.min_eq_left (by omega)
  omega

/-- Claim C4 (amended): when the store holds at most 1000 rows (the
default result limit), a search with every filter at its default returns
all records, ordered by filename ascending; with more rows only the
first 1000 in filename order are returned. -/
theorem search_no_filters_sorted_all (s : List TextureInfo) (h : s.length ≤ 1000) :
    List.Perm (search_textures s "" "" "" 0 999999 0 999999 "" 1000) s ∧
    (search_textures s "" "" "" 0 999999 0 999999 "" 1000).Pairwise
      (fun a b => filenameLe a b = true) := by
  rw [search_defaults_eq]
  have hlen : (sortBy filenameLe s).length = s.length := (sortBy_perm _ _).length_eq
  rw [List.take_of_length_le (by omega)]
  exact ⟨sortBy_perm _ _, pairwise_sortBy _ filenameLe_trans filenameLe_total s⟩

/-- Witness for the amended C4 at a concrete two-row store. -/
theorem search_no_filters_sorted_all_witness :
    ([sampleRec "q" 1, sampleRec "p" 2] : List TextureInfo).length ≤ 1000 ∧
    (List.Perm
      (search_textures [sampleRec "q" 1, sampleRec "p" 2] "" "" "" 0 999999 0 999999 "" 1000)
      [sampleRec "q" 1, sampleRec "p" 2] ∧
     (search_textures [sampleRec "q" 1, sampleRec "p" 2] "" "" "" 0 999999 0 999999 "" 1000).Pairwise
      (fun a b => filenameLe a b = true)) :=
  ⟨by decide, search_no_filters_sorted_all [sampleRec "q" 1, sampleRec "p" 2] (by decide)⟩

/-! ### C5: search by width range -/

/-- Counterexample to C5 as stated: for the width range `[0, 999999]`, a
stored record of width 1000000 is returned even though its width exceeds
the upper end of the range — `999999` acts as a no-bound sentinel, not
as a bound. -/
theorem search_width_sentinel_escapes :
    sampleRec "w" 1000000 ∈
      search_textures [sampleRec "w" 1000000] "" "" "" 0 999999 0 999999 "" 1000 ∧
    ¬ ((sampleRec "w" 1000000).width ≤ 999999) := by
  exact ⟨by decide, by decide⟩

/-- Claim C5 (amended): for every width range with `maxW < 999999` (the
sentinel value means "no upper bound") whose matching rows fit in the
result limit, the search returns exactly the stored records whose width
lies in `[minW, maxW]`. -/
theorem search_width_range_exact (s : List TextureInfo) (minW maxW : Nat)
    (hmax : maxW < 999999)
    (hcount : (s.filter fun r => decide (minW ≤ r.width) && decide (r.width ≤ maxW)).length ≤ 1000) :
    List.Perm (search_textures s "" "" "" minW maxW 0 999999 "" 1000)
      (s.filter fun r => decide (minW ≤ r.width) && decide (r.width ≤ maxW)) := by
  unfold search_textures
  have hfeq : s.filter (matchesFilters "" "" "" minW maxW 0 999999 "") =
      s.filter (fun r => decide (minW ≤ r.width) && decide (r.width ≤ maxW)) :=
    List.filter_congr (fun r _ => matchesFilters_width minW maxW r hmax)
  rw [hfeq, List.take_of_length_le (by rw [(sortBy_perm _ _).length_eq]; omega)]
  exact sortBy_perm _ _

/-- Witness for the amended C5: range `[1, 100]` on a two-row store
keeps exactly the row of width 50. -/
theorem search_width_range_exact_witness :
    (100 < 999999 ∧
     (([sampleRec "p1" 50, sampleRec "p2" 200] : List TextureInfo).filter
        (fun r => decide (1 ≤ r.width) && decide (r.width ≤ 100))).length ≤ 1000) ∧
    List.Perm
      (search_textures [sampleRec "p1" 50, sampleRec "p2" 200] "" "" "" 1 100 0 999999 "" 1000)
      (([sampleRec "p1" 50, sampleRec "p2" 200] : List TextureInfo).filter
        (fun r => decide (1 ≤ r.width) && decide (r.width ≤ 100))) :=
  ⟨⟨by decide, by decide⟩,
   search_width_range_exact [sampleRec "p1" 50, sampleRec "p2" 200] 1 100
     (by decide) (by decide)⟩

/-! ### C10: the 999999 / 0 dimension sentinels impose no constraint -/

/-- A record both of whose dimensions exceed the 999999 sentinel. -/
def hugeRec : TextureInfo := sampleRec "huge" 1000000

/-- 1000 rows with pairwise distinct paths, all with filename "a". -/
def smallStore : List TextureInfo :=
  (List.range 1000).map (fun i => sampleRec (String.append "p" (Nat.repr i)) i)

/-- An over-sentinel record whose filename "z" sorts after every
filename of `smallStore`. -/
def lateHugeRec : TextureInfo :=
  { path := "zz", filename := "z", category := "RimWorld", subcategory := "",
    file_size := 10, width := 1000000, height := 1000000, format := ".png",
    hash_md5 := "h", created_date := "c", modified_date := "m" }

/-- A 1001-row store in which `lateHugeRec` sorts last by filename. -/
def overfullStore : List TextureInfo := smallStore ++ [lateHugeRec]

/-- Counterexample to C10 as stated: it is not true for every store
state that a record with width (and height) above 999999 is still
returned by the default search. On `overfullStore` the over-sentinel
record sorts past position 1000 by filename and the default
`LIMIT 1000` drops it — by the limit, not by any dimension bound. -/
theorem sentinel_dropped_by_limit :
    999999 < lateHugeRec.width ∧ 999999 < lateHugeRec.height ∧
    lateHugeRec ∈ overfullStore ∧
    lateHugeRec ∉ search_textures overfullStore "" "" "" 0 999999 0 999999 "" 1000 := by
  refine ⟨by decide, by decide, by simp [overfullStore], ?_⟩
  intro hmem
  rw [search_defaults_eq] at hmem
  have hperm := sortBy_perm filenameLe overfullStore
  have hlenS : overfullStore.length = 1001 := by simp [overfullStore, smallStore]
  have hlenL : (sortBy filenameLe overfullStore).length = 1001 := by
    rw [hperm.length_eq, hlenS]
  have hsmall : ∀ x ∈ smallStore, x.filename = "a" := by
    intro x hx
    simp only [smallStore, List.mem_map] at hx
    obtain ⟨i, _, rfl⟩ := hx
    rfl
  have hsplit := List.take_append_drop 1000 (sortBy filenameLe overfullStore)
  have hpair2 : ((sortBy filenameLe overfullStore).take 1000 ++
      (sortBy filenameLe overfullStore).drop 1000).Pairwise
      (fun a b => filenameLe a b = true) := by
    rw [hsplit]
    exact pairwise_sortBy _ filenameLe_trans filenameLe_total _
  have hcross := (List.pairwise_append.mp hpair2).2.2
  have hdroplen : ((sortBy filenameLe overfullStore).drop 1000).length = 1 := by
    rw [List.length_drop, hlenL]
  obtain ⟨b, hb⟩ : ∃ b, b ∈ (sortBy filenameLe overfullStore).drop 1000 := by
    cases hdrop : (sortBy filenameLe overfullStore).drop 1000 with
    | nil => rw [hdrop] at hdroplen; simp at hdroplen
    | cons y ys => exact ⟨y, by simp [hdrop]⟩
  have hRb : filenameLe lateHugeRec b = true := hcross lateHugeRec hmem b hb
  have hbS : b ∈ overfullStore := hperm.mem_iff.mp (List.mem_of_mem_drop hb)
  have hnot : lateHugeRec ∉ smallStore := by
    intro hmem2
    have := hsmall lateHugeRec hmem2
    exact absurd this (by decide)
  rcases List.mem_append.mp hbS with hbSmall | hbLate
  · have hfa : b.filename = "a" := hsmall b hbSmall
    unfold filenameLe at hRb
    rw [hfa] at hRb
    exact absurd hRb (by decide)
  · simp only [List.mem_singleton] at hbLate
    subst hbLate
    have hcount : (sortBy filenameLe overfullStore).count lateHugeRec =
        overfullStore.count lateHugeRec := hperm.count_eq lateHugeRec
    have hcountS : overfullStore.count lateHugeRec = 1 := by
      unfold overfullStore
      rw [List.count_append, List.count_eq_zero.mpr hnot]
      simp
    have h1 : 0 < ((sortBy filenameLe overfullStore).take 1000).count lateHugeRec :=
      List.count_pos_iff.mpr hmem
    have h2 : 0 < ((sortBy filenameLe overfullStore).drop 1000).count lateHugeRec :=
      List.count_pos_iff.mpr hb
    have hsum : ((sortBy filenameLe overfullStore).take 1000).count lateHugeRec +
        ((sortBy filenameLe overfullStore).drop 1000).count lateHugeRec =
        (sortBy filenameLe overfullStore).count lateHugeRec := by
      rw [← List.count_append, hsplit]
    omega

/-- Claim C10 (amended): the 0 / 999999 defaults are sentinels that add
no dimension clause at all — any stored record whose store fits within
the default result limit is returned, even one whose width and height
exceed 999999; on larger stores a record can still be dropped, but only
by `LIMIT 1000`, never by a dimension bound. -/
theorem sentinel_bounds_no_filter (s : List TextureInfo) (r : TextureInfo)
    (hlen : s.length ≤ 1000) (hr : r ∈ s)
    (hw : 999999 < r.width) (hh : 999999 < r.height) :
    r ∈ search_textures s "" "" "" 0 999999 0 999999 "" 1000 := by
  rw [search_defaults_eq,
    List.take_of_length_le (by rw [(sortBy_perm filenameLe s).length_eq]; omega)]
  exact (sortBy_perm filenameLe s).mem_iff.mpr hr

/-- Witness for the amended C10: a single stored record of dimensions
1000000 × 1000000 is returned by the default search. -/
theorem sentinel_bounds_no_filter_witness :
    (([hugeRec] : List TextureInfo).length ≤ 1000 ∧ hugeRec ∈ [hugeRec] ∧
     999999 < hugeRec.width ∧ 999999 < hugeRec.height) ∧
    hugeRec ∈ search_textures [hugeRec] "" "" "" 0 999999 0 999999 "" 1000 :=
  ⟨⟨by decide, by decide, by decide, by decide⟩,
   sentinel_bounds_no_filter [hugeRec] hugeRec
     (by decide) (by decide) (by decide) (by decide)⟩

/-! ### C6: category and subcategory derivation from path segments -/

/-- Claim C6: category is the first product name (in code order) that
the first path segment contains, and the subcategory joins the
intermediate segments after stripping a leading art-source alias.
The three conjuncts show: the spec's example
`RimWorldArtSource/Buildings/wall.png ↦ ("RimWorld", "Buildings")`;
first-match-wins on a segment containing both "Odyssey" and "RimWorld";
a leading `RimWorldArtSource` intermediate segment being stripped; and
the general fact that any first segment containing "RimWorld" yields
category "RimWorld" regardless of the later product names it contains. -/
theorem category_derivation_examples :
    extract_category_info ["RimWorldArtSource", "Buildings", "wall.png"]
      = ("RimWorld", "Buildings") ∧
    extract_category_info ["OdysseyRimWorldPack", "Things", "item.png"]
      = ("RimWorld", "Things") ∧
    extract_category_info ["RimWorld", "RimWorldArtSource", "Apparel", "hat.png"]
      = ("RimWorld", "Apparel") ∧
    (∀ (p0 : String) (rest : List String), containsSub "RimWorld" p0 = true →
      (extract_category_info (p0 :: rest)).1 = "RimWorld") := by
  refine ⟨by decide, by decide, by decide, ?_⟩
  intro p0 rest h
  simp [extract_category_info, h]

/-- Witness for C6's universal conjunct at a concrete segment. -/
theorem category_derivation_examples_witness :
    containsSub "RimWorld" "RimWorldX" = true ∧
    (extract_category_info ["RimWorldX", "f.png"]).1 = "RimWorld" :=
  ⟨by decide, category_derivation_examples.2.2.2 "RimWorldX" ["f.png"] (by decide)⟩

/-! ### C7: per-file read failures degrade the record, never abort -/

/-- A file of a supported format whose image decode and byte read both
raise. -/
def badFile : FsFile :=
  { parts := ["RimWorldArtSource", "Things", "bad.png"], file_size := 5,
    ctime := "c0", mtime := "m0", decoded := none, hashed := none }

/-- Claim C7: a not-yet-indexed file of a supported format is always
indexed to a record; if its image decode fails the record has width 0
and height 0, if reading its bytes for hashing fails the record's hash
is the empty string, and in every case the `index_directory` loop saves
that record and continues with the remaining files instead of aborting. -/
theorem per_file_failure_degrades (f : FsFile) (rest : List FsFile)
    (store : List TextureInfo)
    (hfmt : strToLower (fileSuffix (nameOf f.parts)) ∈ supported_formats)
    (hnew : get_texture_by_path store (pathOf f.parts) = none) :
    index_file f = some (buildInfo f) ∧
    (f.decoded = none → (buildInfo f).width = 0 ∧ (buildInfo f).height = 0) ∧
    (f.hashed = none → (buildInfo f).hash_md5 = "") ∧
    index_directory (f :: rest) store =
      ((index_directory rest (save_texture_info store (buildInfo f))).1,
       (index_directory rest (save_texture_info store (buildInfo f))).2 + 1) := by
  refine ⟨?_, ?_, ?_, ?_⟩
  · simp [index_file, hfmt]
  · intro hd
    simp [buildInfo, get_image_dimensions, hd]
  · intro hh
    simp [buildInfo, get_file_hash, hh]
  · simp only [index_directory, hnew]
    simp [index_file, hfmt]

/-- Witness for C7: `badFile` (both reads fail) on an empty store, with
one further file behind it. -/
theorem per_file_failure_degrades_witness :
    (strToLower (fileSuffix (nameOf badFile.parts)) ∈ supported_formats ∧
     get_texture_by_path [] (pathOf badFile.parts) = none) ∧
    (index_file badFile = some (buildInfo badFile) ∧
     (badFile.decoded = none →
       (buildInfo badFile).width = 0 ∧ (buildInfo badFile).height = 0) ∧
     (badFile.hashed = none → (buildInfo badFile).hash_md5 = "") ∧
     index_directory [badFile, sampleFile] [] =
       ((index_directory [sampleFile] (save_texture_info [] (buildInfo badFile))).1,
        (index_directory [sampleFile] (save_texture_info [] (buildInfo badFile))).2 + 1)) :=
  ⟨⟨by decide, rfl⟩, per_file_failure_degrades badFile [sampleFile] [] (by decide) rfl⟩

/-! ### C8 and C9: statistics -/

lemma countRows_eq_length (s : List TextureInfo) : countRows s = s.length := by
  have key : ∀ (l : List TextureInfo) (n : Nat),
      l.foldl (fun n _ => n + 1) n = n + l.length := by
    intro l
    induction l with
    | nil => intro n; simp
    | cons x t ih =>
      intro n
      simp only [List.foldl_cons, List.length_cons, ih]
      omega
  simpa [countRows] using key s 0

lemma lookup_keyed_map (l : List String) (f : String → Nat) (c : String) :
    (List.lookup c (l.map (fun k => (k, f k)))).getD 0 = if c ∈ l then f c else 0 := by
  induction l with
  | nil => simp [List.lookup]
  | cons k t ih =>
    by_cases hck : c = k
    · subst hck
      simp [List.lookup]
    · have hbeq : (c == k) = false := by simpa using hck
      simp [List.lookup, hbeq, hck, ih]

lemma lookup_groupCount (ks : List String) (c : String) :
    ((groupCount ks).lookup c).getD 0 = ks.count c := by
  unfold groupCount
  rw [lookup_keyed_map]
  by_cases hc : c ∈ sortBy strLe ks.dedup
  · simp [hc]
  · have hc2 : c ∉ ks := by
      intro hmem
      exact hc ((sortBy_perm strLe ks.dedup).mem_iff.mpr (List.mem_dedup.mpr hmem))
    simp [hc, List.count_eq_zero.mpr hc2]

lemma count_map_eq_filter_length (s : List TextureInfo) (g : TextureInfo → String)
    (c : String) :
    (s.map g).count c = (s.filter (fun r => g r == c)).length := by
  induction s with
  | nil => rfl
  | cons x t ih =>
    simp only [List.map_cons, List.count_cons, List.filter_cons]
    by_cases hx : (g x == c) = true
    · simp [hx, ih]
    · simp only [hx, Bool.false_eq_true, if_false, List.length_cons]
      simp [ih]

/-- Claim C8: `get_statistics` returns the row count, per-category and
per-format group counts, and — on a non-empty store — the means of
width, height and file size across all rows, rounded to two decimals. -/
theorem statistics_fields_correct (s : List TextureInfo) (h : s ≠ []) :
    (get_statistics s).total_textures = s.length ∧
    (∀ c, ((get_statistics s).by_category.lookup c).getD 0 =
      (s.filter (fun r => r.category == c)).length) ∧
    (∀ fm, ((get_statistics s).by_format.lookup fm).getD 0 =
      (s.filter (fun r => r.format == fm)).length) ∧
    (get_statistics s).avg_width =
      roundTo2 (((s.map (fun r => r.width)).sum : ℚ) / s.length) ∧
    (get_statistics s).avg_height =
      roundTo2 (((s.map (fun r => r.height)).sum : ℚ) / s.length) ∧
    (get_statistics s).avg_file_size =
      roundTo2 (((s.map (fun r => r.file_size)).sum : ℚ) / s.length) := by
  have hne : ∀ g : TextureInfo → Nat, (s.map g).isEmpty = false := by
    intro g
    cases s with
    | nil => exact absurd rfl h
    | cons x t => rfl
  refine ⟨countRows_eq_length s, ?_, ?_, ?_, ?_, ?_⟩
  · intro c
    simp only [get_statistics]
    rw [lookup_groupCount, count_map_eq_filter_length]
  · intro fm
    simp only [get_statistics]
    rw [lookup_groupCount, count_map_eq_filter_length]
  · simp [get_statistics, sqlAvg, hne]
    rfl
  · simp [get_statistics, sqlAvg, hne]
    rfl
  · simp [get_statistics, sqlAvg, hne]
    rfl

/-- Witness for C8 at a concrete two-row store. -/
theorem statistics_fields_correct_witness :
    ([sampleRec "p1" 2, sampleRec "p2" 4] : List TextureInfo) ≠ [] ∧
    ((get_statistics [sampleRec "p1" 2, sampleRec "p2" 4]).total_textures =
      ([sampleRec "p1" 2, sampleRec "p2" 4] : List TextureInfo).length ∧
     (∀ c, ((get_statistics [sampleRec "p1" 2, sampleRec "p2" 4]).by_category.lookup c).getD 0 =
       (([sampleRec "p1" 2, sampleRec "p2" 4] : List TextureInfo).filter
         (fun r => r.category == c)).length) ∧
     (∀ fm, ((get_statistics [sampleRec "p1" 2, sampleRec "p2" 4]).by_format.lookup fm).getD 0 =
       (([sampleRec "p1" 2, sampleRec "p2" 4] : List TextureInfo).filter
         (fun r => r.format == fm)).length) ∧
     (get_statistics [sampleRec "p1" 2, sampleRec "p2" 4]).avg_width =
       roundTo2 (((([sampleRec "p1" 2, sampleRec "p2" 4] : List TextureInfo).map
         (fun r => r.width)).sum : ℚ) /
         ([sampleRec "p1" 2, sampleRec "p2" 4] : List TextureInfo).length) ∧
     (get_statistics [sampleRec "p1" 2, sampleRec "p2" 4]).avg_height =
       roundTo2 (((([sampleRec "p1" 2, sampleRec "p2" 4] : List TextureInfo).map
         (fun r => r.height)).sum : ℚ) /
         ([sampleRec "p1" 2, sampleRec "p2" 4] : List TextureInfo).length) ∧
     (get_statistics [sampleRec "p1" 2, sampleRec "p2" 4]).avg_file_size =
       roundTo2 (((([sampleRec "p1" 2, sampleRec "p2" 4] : List TextureInfo).map
         (fun r => r.file_size)).sum : ℚ) /
         ([sampleRec "p1" 2, sampleRec "p2" 4] : List TextureInfo).length)) :=
  ⟨by simp, statistics_fields_correct [sampleRec "p1" 2, sampleRec "p2" 4] (by simp)⟩

/-- Claim C9: on an empty store `get_statistics` neither fails nor
returns null averages — the total is 0, both group-count maps are empty,
and the three averages are 0 (the `or 0` fallback applied to SQL NULL). -/
theorem statistics_empty_store :
    get_statistics [] =
      { total_textures := 0, by_category := [], by_format := [],
        avg_width := 0, avg_height := 0, avg_file_size := 0 } := by
  simp [get_statistics, groupCount, countRows, sqlAvg, roundTo2, sortBy]
